import Mathlib

/-!
Shallow embedding of `src/daemon/pkg-mgr.cc` from deviceMLOps.MLAgent:
the descriptor-ingestion and registry-synchronization pipeline of the
ML-Agent daemon.  JSON values are modelled as an inductive type, the
filesystem as a total map from paths to file contents, and the registry
calls (`svcdb_model_add`, `svcdb_pipeline_set`, ...) as a trace of
operations emitted by the handler, in the order the code issues them.
-/

namespace MLAgent

/-- JSON values, as produced by json-glib's parser. -/
inductive Json where
  | null
  | bool (b : Bool)
  | num (n : Int)
  | str (s : String)
  | arr (elems : List Json)
  | obj (members : List (String × Json))

/-- A JSON object is an ordered list of members; later members with the
same key shadow earlier ones, as in json-glib's hash-table semantics. -/
abbrev JsonObject := List (String × Json)

/-- `json_object_get_member`: the value of member `k`, the last binding
winning, `none` when absent. -/
def json_object_get_member (members : JsonObject) (k : String) : Option Json :=
  members.foldl (fun acc m => if m.1 = k then some m.2 else acc) none

/-- `json_node_get_object`: returns the object held by a node, or `none`
(glib `g_return_val_if_fail`) when the node holds something else. -/
def json_node_get_object : Json → Option JsonObject
  | .obj members => some members
  | _ => none

/-- `json_object_get_string_member` applied to a possibly-NULL object
(the code may pass a NULL `JsonObject *`): `none` when the object is
NULL, the member is absent, or the member is not a string. -/
def json_object_get_string_member (object : Option JsonObject) (k : String) : Option String :=
  match object with
  | none => none
  | some members =>
      match json_object_get_member members k with
      | some (.str s) => some s
      | _ => none

/-- `g_ascii_tolower`: lower-cases ASCII `A`-`Z` only. -/
def g_ascii_tolower (c : Char) : Char :=
  if 'A' ≤ c ∧ c ≤ 'Z' then Char.ofNat (c.toNat + 32) else c

/-- `g_ascii_strcasecmp (a, b) == 0`: ASCII case-insensitive equality. -/
def g_ascii_strcaseeq (a b : String) : Bool :=
  a.data.map g_ascii_tolower = b.data.map g_ascii_tolower

/-- The idiom `(s && g_ascii_strcasecmp (s, "true") == 0)` used for the
boolean-like fields `activate` and `clear`: true exactly when the field
is present and matches `"true"` case-insensitively. -/
def strcaseeq_true : Option String → Bool
  | some s => g_ascii_strcaseeq s "true"
  | none => false

/-- `mlsvc_json_type_e`: the three artifact kinds. -/
inductive mlsvc_json_type_e where
  | model
  | pipeline
  | resource
  deriving DecidableEq

/-- The fixed descriptor filename chosen by the `switch (json_type)` at
the top of `_parse_json`. -/
def descriptor_filename : mlsvc_json_type_e → String
  | .model => "model_description.json"
  | .pipeline => "pipeline_description.json"
  | .resource => "resource_description.json"

/-- `g_build_filename` with two components. -/
def g_build_filename (dir name : String) : String :=
  dir ++ "/" ++ name

/-- What the filesystem holds at a path: no regular file there, a file
whose contents fail JSON parsing, or a file parsing to a JSON root. -/
inductive FileContent where
  | notRegular
  | parseError
  | json (root : Json)

/-- The filesystem, a total map from paths to contents. -/
abbrev FileSystem := String → FileContent

/-- Registry operations attempted by the code, in issue order.
`app_info` carries the JSON value of the provenance blob (the C code
passes its serialized text; serialization is json-glib's concern). -/
inductive RegOp where
  | svcdb_model_delete (name : String) (version : Nat)
  | svcdb_model_add (name model : String) (active : Bool) (description : String) (app_info : Json)
  | svcdb_pipeline_set (name description : String)
  | svcdb_resource_delete (name : String)
  | svcdb_resource_add (name path description : String) (app_info : Json)

/-- The `MLSVC_JSON_MODEL` arm of the per-record switch in
`_parse_json`: requires `name` and `model`, best-effort delete when
`clear` is truthy, then the add. -/
def process_model_record (app_info : Option Json) (object : Option JsonObject) : List RegOp :=
  let name := json_object_get_string_member object "name"
  let model := json_object_get_string_member object "model"
  let desc := json_object_get_string_member object "description"
  let activate := json_object_get_string_member object "activate"
  let clear := json_object_get_string_member object "clear"
  match name, model with
  | some name, some model =>
      let active := strcaseeq_true activate
      let clear_old := strcaseeq_true clear
      (if clear_old then [RegOp.svcdb_model_delete name 0] else [])
        ++ [RegOp.svcdb_model_add name model active (desc.getD "") (app_info.getD (Json.str ""))]
  | _, _ => []

/-- The `MLSVC_JSON_PIPELINE` arm: requires `name` and `description`,
then an unconditional upsert. -/
def process_pipeline_record (object : Option JsonObject) : List RegOp :=
  let name := json_object_get_string_member object "name"
  let desc := json_object_get_string_member object "description"
  match name, desc with
  | some name, some desc => [RegOp.svcdb_pipeline_set name desc]
  | _, _ => []

/-- The `MLSVC_JSON_RESOURCE` arm: requires `name` and `path`,
best-effort delete when `clear` is truthy, then the add. -/
def process_resource_record (app_info : Option Json) (object : Option JsonObject) : List RegOp :=
  let name := json_object_get_string_member object "name"
  let path := json_object_get_string_member object "path"
  let desc := json_object_get_string_member object "description"
  let clear := json_object_get_string_member object "clear"
  match name, path with
  | some name, some path =>
      let clear_old := strcaseeq_true clear
      (if clear_old then [RegOp.svcdb_resource_delete name] else [])
        ++ [RegOp.svcdb_resource_add name path (desc.getD "") (app_info.getD (Json.str ""))]
  | _, _ => []

/-- One iteration of the update loop of `_parse_json`, dispatching on
`json_type`. -/
def process_record (json_type : mlsvc_json_type_e) (app_info : Option Json)
    (object : Option JsonObject) : List RegOp :=
  match json_type with
  | .model => process_model_record app_info object
  | .pipeline => process_pipeline_record object
  | .resource => process_resource_record app_info object

/-- `_parse_json`: locate the kind's fixed descriptor file under
`json_path`, skip when missing or unparsable, normalize the root (array
of records, or a single record otherwise), and process each record in
order.  Returns the trace of attempted registry operations. -/
def parse_json (fs : FileSystem) (json_path : String) (json_type : mlsvc_json_type_e)
    (app_info : Option Json) : List RegOp :=
  let json_file := g_build_filename json_path (descriptor_filename json_type)
  match fs json_file with
  | .notRegular => []
  | .parseError => []
  | .json root =>
      let objects : List (Option JsonObject) :=
        match root with
        | .arr elems => elems.map json_node_get_object
        | _ => [json_node_get_object root]
      objects.flatMap (process_record json_type app_info)

/-- `_get_app_info`: the provenance blob built by `JsonBuilder`
(the C code serializes this object with `JsonGenerator`). -/
def get_app_info (package_name res_type res_version : String) : Json :=
  Json.obj
    [ ("is_rpk", Json.str "T")
    , ("app_id", Json.str package_name)
    , ("res_type", Json.str res_type)
    , ("res_version", Json.str res_version) ]

/-- `package_manager_event_type_e`, restricted to the values the
callback distinguishes. -/
inductive package_manager_event_type_e where
  | install
  | uninstall
  | update
  | res_copy
  | other
  deriving DecidableEq

/-- `package_manager_event_state_e`, restricted to the values the
callback distinguishes. -/
inductive package_manager_event_state_e where
  | started
  | processing
  | completed
  | failed
  | otherState
  deriving DecidableEq

/-- The environment the callback consults: the outcome of
`package_info_create`, of the `res_type` and `res_version` queries
(`none` models query failure), and the filesystem. -/
structure PkgEnv where
  package_info_create_ok : Bool
  res_type : Option String
  res_version : Option String
  fs : FileSystem

/-- `_pkg_mgr_event_cb`: the event router.  Returns the trace of
attempted registry operations (the directory listings of
`_pkg_mgr_echo_pkg_path_info` are log-only and emit no operations). -/
def pkg_mgr_event_cb (env : PkgEnv) (ty package_name : String)
    (event_type : package_manager_event_type_e)
    (event_state : package_manager_event_state_e) : List RegOp :=
  if event_type = .res_copy then []
  else if g_ascii_strcaseeq ty "rpk" = false then []
  else
    let pkg_path := "/opt/usr/globalapps/" ++ package_name ++ "/res/global"
    if event_type = .install ∧ event_state = .completed then
      if env.package_info_create_ok = false then []
      else
        match env.res_type with
        | none => []
        | some res_type =>
            match env.res_version with
            | none => []
            | some res_version =>
                let app_info := get_app_info package_name res_type res_version
                let json_path := g_build_filename pkg_path res_type
                parse_json env.fs json_path .model (some app_info)
                  ++ parse_json env.fs json_path .pipeline (some app_info)
                  ++ parse_json env.fs json_path .resource (some app_info)
    else if event_type = .uninstall ∧ event_state = .started then []
    else if event_type = .update ∧ event_state = .completed then []
    else []

/-- A row of the model table: name, registry-assigned version, path,
active flag, description, provenance. -/
structure ModelRow where
  name : String
  version : Nat
  path : String
  active : Bool
  description : String
  app_info : Json

/-- The registry state: models (multi-version), pipelines (keyed by
name), resources (keyed by name). -/
structure RegState where
  models : List ModelRow
  pipelines : List (String × String)
  resources : List (String × String × String × Json)

/-- Modelled from the spec: the persistent registry's operation
contracts (spec §6); the `svcdb_*` implementations are not part of
`src/`.  `deleteModel(name, 0)` deletes all versions of `name`; `addModel`
assigns a fresh version one above the largest existing one for `name`;
`setPipeline` is an upsert; `deleteResource`/`addResource` are keyed
delete and add. -/
def applyOp (s : RegState) : RegOp → RegState
  | .svcdb_model_delete name version =>
      { s with
        models := s.models.filter
          (fun r => ¬(r.name = name ∧ (version = 0 ∨ r.version = version))) }
  | .svcdb_model_add name path active description app_info =>
      let v := 1 + ((s.models.filter (fun r => r.name = name)).map ModelRow.version).foldl max 0
      { s with models := s.models ++ [⟨name, v, path, active, description, app_info⟩] }
  | .svcdb_pipeline_set name description =>
      { s with pipelines := s.pipelines.filter (fun p => p.1 ≠ name) ++ [(name, description)] }
  | .svcdb_resource_delete name =>
      { s with resources := s.resources.filter (fun r => r.1 ≠ name) }
  | .svcdb_resource_add name path description app_info =>
      { s with resources := s.resources ++ [(name, path, description, app_info)] }

/-- Apply a trace of registry operations in order. -/
def applyOps (s : RegState) (ops : List RegOp) : RegState :=
  ops.foldl applyOp s

/-- A filesystem holding exactly one regular file. -/
def single_file_fs (file : String) (c : FileContent) : FileSystem :=
  fun f => if f = file then c else FileContent.notRegular

/-- Whether a raw record carries the required fields of its kind
(`name`/`model` for models, `name`/`description` for pipelines,
`name`/`path` for resources). -/
def required_fields_present (json_type : mlsvc_json_type_e) (j : Json) : Bool :=
  let object := json_node_get_object j
  match json_type with
  | .model =>
      (json_object_get_string_member object "name").isSome
        && (json_object_get_string_member object "model").isSome
  | .pipeline =>
      (json_object_get_string_member object "name").isSome
        && (json_object_get_string_member object "description").isSome
  | .resource =>
      (json_object_get_string_member object "name").isSome
        && (json_object_get_string_member object "path").isSome

/-- The registration operation a well-formed record gives rise to
(meaningful on records satisfying `required_fields_present`). -/
def registration_of (json_type : mlsvc_json_type_e) (app_info : Option Json) (j : Json) : RegOp :=
  let object := json_node_get_object j
  match json_type with
  | .model =>
      RegOp.svcdb_model_add
        ((json_object_get_string_member object "name").getD "")
        ((json_object_get_string_member object "model").getD "")
        (strcaseeq_true (json_object_get_string_member object "activate"))
        ((json_object_get_string_member object "description").getD "")
        (app_info.getD (Json.str ""))
  | .pipeline =>
      RegOp.svcdb_pipeline_set
        ((json_object_get_string_member object "name").getD "")
        ((json_object_get_string_member object "description").getD "")
  | .resource =>
      RegOp.svcdb_resource_add
        ((json_object_get_string_member object "name").getD "")
        ((json_object_get_string_member object "path").getD "")
        ((json_object_get_string_member object "description").getD "")
        (app_info.getD (Json.str ""))

/-- Whether an operation is a registration attempt (an add or set,
as opposed to a best-effort delete). -/
def is_registration : RegOp → Bool
  | .svcdb_model_add _ _ _ _ _ => true
  | .svcdb_pipeline_set _ _ => true
  | .svcdb_resource_add _ _ _ _ => true
  | _ => false

/-- Modelled from the spec: the consumer that re-parses the serialized
AppInfo blob lives outside `src/` (spec §8 round-trip property); per spec
§3 it recovers `app_id`, `res_type` and `res_version` from the parsed
JSON object.  json-glib's `JsonGenerator`/`JsonParser` pair is taken as
the identity on JSON values. -/
def parse_app_info (root : Json) : Option (String × String × String) :=
  let object := json_node_get_object root
  match json_object_get_string_member object "app_id",
        json_object_get_string_member object "res_type",
        json_object_get_string_member object "res_version" with
  | some app_id, some rt, some rv => some (app_id, rt, rv)
  | _, _, _ => none

/-- A record missing a required field of its kind produces no registry
operation at all. -/
theorem process_record_eq_nil (json_type : mlsvc_json_type_e) (app_info : Option Json)
    (j : Json) (h : required_fields_present json_type j = false) :
    process_record json_type app_info (json_node_get_object j) = [] := by
  cases json_type with
  | model =>
      cases hn : json_object_get_string_member (json_node_get_object j) "name" <;>
        cases hm : json_object_get_string_member (json_node_get_object j) "model" <;>
          simp_all [process_record, process_model_record, required_fields_present]
  | pipeline =>
      cases hn : json_object_get_string_member (json_node_get_object j) "name" <;>
        cases hm : json_object_get_string_member (json_node_get_object j) "description" <;>
          simp_all [process_record, process_pipeline_record, required_fields_present]
  | resource =>
      cases hn : json_object_get_string_member (json_node_get_object j) "name" <;>
        cases hm : json_object_get_string_member (json_node_get_object j) "path" <;>
          simp_all [process_record, process_resource_record, required_fields_present]

/-- The registration attempts of one record: exactly one when its
required fields are present, none otherwise. -/
theorem process_record_filter_registration (json_type : mlsvc_json_type_e)
    (app_info : Option Json) (j : Json) :
    (process_record json_type app_info (json_node_get_object j)).filter is_registration
      = if required_fields_present json_type j then [registration_of json_type app_info j]
        else [] := by
  cases json_type with
  | model =>
      cases hn : json_object_get_string_member (json_node_get_object j) "name" <;>
        cases hm : json_object_get_string_member (json_node_get_object j) "model" <;>
          cases hc : strcaseeq_true (json_object_get_string_member (json_node_get_object j) "clear") <;>
            simp_all [process_record, process_model_record, required_fields_present,
              registration_of, is_registration, List.filter]
  | pipeline =>
      cases hn : json_object_get_string_member (json_node_get_object j) "name" <;>
        cases hm : json_object_get_string_member (json_node_get_object j) "description" <;>
          simp_all [process_record, process_pipeline_record, required_fields_present,
            registration_of, is_registration, List.filter]
  | resource =>
      cases hn : json_object_get_string_member (json_node_get_object j) "name" <;>
        cases hm : json_object_get_string_member (json_node_get_object j) "path" <;>
          cases hc : strcaseeq_true (json_object_get_string_member (json_node_get_object j) "clear") <;>
            simp_all [process_record, process_resource_record, required_fields_present,
              registration_of, is_registration, List.filter]

/-- Over a whole array of records, the registration attempts are the
well-formed records' registrations, in array order. -/
theorem flatMap_filter_registration (json_type : mlsvc_json_type_e)
    (app_info : Option Json) (elems : List Json) :
    ((elems.map json_node_get_object).flatMap (process_record json_type app_info)).filter is_registration
      = (elems.filter (required_fields_present json_type)).map (registration_of json_type app_info) := by
  induction elems with
  | nil => rfl
  | cons j js ih =>
      rw [List.map_cons, List.flatMap_cons, List.filter_append, ih,
        process_record_filter_registration, List.filter_cons]
      cases h : required_fields_present json_type j <;> simp [h]

/-- Counting: the records passing a check plus the ones failing it are
all of them. -/
theorem length_filter_add {α : Type} (l : List α) (p : α → Bool) :
    (l.filter p).length + (l.filter (fun a => p a = false)).length = l.length := by
  induction l with
  | nil => rfl
  | cons a l ih =>
      rw [List.filter_cons, List.filter_cons]
      cases h : p a
      · rw [if_neg (by simp [h]), if_pos (by simp [h])]
        simp only [List.length_cons]
        omega
      · rw [if_pos (by simp [h]), if_neg (by simp [h])]
        simp only [List.length_cons]
        omega

/-- Counting: the records passing a check are all of them minus the
ones failing it. -/
theorem length_filter_eq_sub {α : Type} (l : List α) (p : α → Bool) :
    (l.filter p).length = l.length - (l.filter (fun a => p a = false)).length := by
  have h := length_filter_add l p
  omega

/-- `_parse_json` consults the filesystem only at the kind's descriptor
path: two filesystems agreeing there yield the same trace. -/
theorem parse_json_fs_congr (fs fsB : FileSystem) (json_path : String)
    (json_type : mlsvc_json_type_e) (app_info : Option Json)
    (h : fs (g_build_filename json_path (descriptor_filename json_type))
       = fsB (g_build_filename json_path (descriptor_filename json_type))) :
    parse_json fs json_path json_type app_info
      = parse_json fsB json_path json_type app_info := by
  simp only [parse_json]
  rw [h]

/-- Reading through `single_file_fs` at the kind's descriptor path is
reading a constant filesystem. -/
theorem parse_json_single_file (c : FileContent) (json_path : String)
    (json_type : mlsvc_json_type_e) (app_info : Option Json) :
    parse_json (single_file_fs (g_build_filename json_path (descriptor_filename json_type)) c)
        json_path json_type app_info
      = parse_json (fun _ => c) json_path json_type app_info :=
  parse_json_fs_congr _ _ _ _ _ (by simp [single_file_fs])

/-- C1: a descriptor file whose JSON root is an array of N records, M of
them malformed (missing a required field of their kind), yields exactly
the N − M registration attempts of the well-formed records, one each, in
array order; each malformed record produces no operation and never stops
the records after it from being processed. -/
theorem malformed_records_skipped_individually (elems : List Json) (json_path : String)
    (json_type : mlsvc_json_type_e) (app_info : Option Json) :
    ((parse_json (single_file_fs (g_build_filename json_path (descriptor_filename json_type))
          (FileContent.json (Json.arr elems))) json_path json_type app_info).filter is_registration
        = (elems.filter (required_fields_present json_type)).map (registration_of json_type app_info))
    ∧ ((parse_json (single_file_fs (g_build_filename json_path (descriptor_filename json_type))
          (FileContent.json (Json.arr elems))) json_path json_type app_info).filter is_registration).length
        = elems.length - (elems.filter (fun j => required_fields_present json_type j = false)).length
    ∧ ∀ j ∈ elems, required_fields_present json_type j = false →
        process_record json_type app_info (json_node_get_object j) = [] := by
  have h1 : (parse_json (single_file_fs (g_build_filename json_path (descriptor_filename json_type))
          (FileContent.json (Json.arr elems))) json_path json_type app_info).filter is_registration
      = (elems.filter (required_fields_present json_type)).map (registration_of json_type app_info) := by
    rw [parse_json_single_file]
    exact flatMap_filter_registration json_type app_info elems
  refine ⟨h1, ?_, fun j _ hj => process_record_eq_nil json_type app_info j hj⟩
  rw [h1, List.length_map]
  exact length_filter_eq_sub elems (required_fields_present json_type)

/-- Witness for C1 at a concrete malformed record. -/
theorem malformed_records_skipped_individually_witness :
    process_record .model none (json_node_get_object (Json.str "x")) = [] :=
  (malformed_records_skipped_individually [Json.str "x"] "/r" .model none).2.2
    (Json.str "x") (by simp) (by rfl)

/-- C2: on an install-completion event, a failed package metadata lookup
(`package_info_create`, res-type query, or res-version query) aborts the
event before any descriptor handling: no registry operation is attempted
(for any filesystem contents) and the registry state is unchanged. -/
theorem install_completed_lookup_failure_no_ops (env : PkgEnv) (ty package_name : String)
    (s : RegState)
    (h : env.package_info_create_ok = false ∨ env.res_type = none ∨ env.res_version = none) :
    pkg_mgr_event_cb env ty package_name .install .completed = []
    ∧ applyOps s (pkg_mgr_event_cb env ty package_name .install .completed) = s := by
  have hcb : pkg_mgr_event_cb env ty package_name .install .completed = [] := by
    unfold pkg_mgr_event_cb
    cases hty : g_ascii_strcaseeq ty "rpk"
    · simp
    · rcases h with h | h | h
      · simp [h]
      · cases hc : env.package_info_create_ok <;> simp [h, hc]
      · cases hc : env.package_info_create_ok <;> cases ht : env.res_type <;> simp [h, hc, ht]
  exact ⟨hcb, by rw [hcb]; rfl⟩

/-- Witness for C2: a concrete environment whose res-type query fails. -/
theorem install_completed_lookup_failure_no_ops_witness :
    pkg_mgr_event_cb ⟨true, none, none, fun _ => FileContent.notRegular⟩ "rpk" "pkg"
        .install .completed = []
    ∧ applyOps ⟨[], [], []⟩ (pkg_mgr_event_cb ⟨true, none, none, fun _ => FileContent.notRegular⟩
        "rpk" "pkg" .install .completed) = ⟨[], [], []⟩ :=
  install_completed_lookup_failure_no_ops ⟨true, none, none, fun _ => FileContent.notRegular⟩
    "rpk" "pkg" ⟨[], [], []⟩ (Or.inr (Or.inl rfl))

/-- C3: a boolean-like field ("activate", "clear") parses to true exactly
when it is present as a string ASCII-case-insensitively equal to the
literal "true"; an absent field, a non-string value (including a JSON
boolean), or any other string yields false. -/
theorem bool_fields_strict_true_iff (object : Option JsonObject) (k : String) :
    strcaseeq_true (json_object_get_string_member object k) = true
      ↔ ∃ s, json_object_get_string_member object k = some s
          ∧ s.data.map g_ascii_tolower = "true".data := by
  have htrue : "true".data.map g_ascii_tolower = "true".data := by decide
  cases h : json_object_get_string_member object k with
  | none => simp [strcaseeq_true]
  | some s => simp [strcaseeq_true, g_ascii_strcaseeq, htrue]

/-- C4: a descriptor file whose root is the single object `o` produces
exactly the same operation trace as one whose root is the one-element
array `[o]`. -/
theorem single_object_matches_singleton_array (members : JsonObject) (json_path : String)
    (json_type : mlsvc_json_type_e) (app_info : Option Json) :
    parse_json (single_file_fs (g_build_filename json_path (descriptor_filename json_type))
        (FileContent.json (Json.obj members))) json_path json_type app_info
      = parse_json (single_file_fs (g_build_filename json_path (descriptor_filename json_type))
        (FileContent.json (Json.arr [Json.obj members]))) json_path json_type app_info := by
  rw [parse_json_single_file, parse_json_single_file]
  rfl

/-- C5: for a valid model record, a truthy `clear` yields a best-effort
delete of all versions of the name (version argument 0) followed by the
add, and the add is attempted regardless of the delete's outcome (the
code ignores the delete's return value, so the trace contains the add
unconditionally); a falsy `clear` yields the add alone.  Symmetrically
for resource records with `deleteResource(name)` before `addResource`. -/
theorem clear_previous_delete_then_add :
    (∀ (app_info : Option Json) (object : Option JsonObject) (name model : String),
        json_object_get_string_member object "name" = some name →
        json_object_get_string_member object "model" = some model →
        process_model_record app_info object
          = (if strcaseeq_true (json_object_get_string_member object "clear") = true
             then [RegOp.svcdb_model_delete name 0] else [])
            ++ [RegOp.svcdb_model_add name model
                  (strcaseeq_true (json_object_get_string_member object "activate"))
                  ((json_object_get_string_member object "description").getD "")
                  (app_info.getD (Json.str ""))])
    ∧ (∀ (app_info : Option Json) (object : Option JsonObject) (name path : String),
        json_object_get_string_member object "name" = some name →
        json_object_get_string_member object "path" = some path →
        process_resource_record app_info object
          = (if strcaseeq_true (json_object_get_string_member object "clear") = true
             then [RegOp.svcdb_resource_delete name] else [])
            ++ [RegOp.svcdb_resource_add name path
                  ((json_object_get_string_member object "description").getD "")
                  (app_info.getD (Json.str ""))]) := by
  constructor
  · intro app_info object name model hn hm
    simp [process_model_record, hn, hm]
  · intro app_info object name path hn hp
    simp [process_resource_record, hn, hp]

/-- Witness for C5 at concrete records, with and without `clear`. -/
theorem clear_previous_delete_then_add_witness :
    process_model_record none
        (some [("name", Json.str "n"), ("model", Json.str "m"), ("clear", Json.str "TRUE")])
      = [RegOp.svcdb_model_delete "n" 0, RegOp.svcdb_model_add "n" "m" false "" (Json.str "")]
    ∧ process_resource_record none (some [("name", Json.str "r"), ("path", Json.str "p")])
      = [RegOp.svcdb_resource_add "r" "p" "" (Json.str "")] := by
  refine ⟨?_, ?_⟩
  · rw [clear_previous_delete_then_add.1 none
      (some [("name", Json.str "n"), ("model", Json.str "m"), ("clear", Json.str "TRUE")])
      "n" "m" rfl rfl]
    rfl
  · rw [clear_previous_delete_then_add.2 none
      (some [("name", Json.str "r"), ("path", Json.str "p")]) "r" "p" rfl rfl]
    rfl

/-- C6: the locator resolves exactly the fixed per-kind filename under
the root; a path holding no regular file makes that kind a silent skip
(no operations); and a kind's processing depends on the filesystem only
at its own descriptor path, so one kind's absence cannot affect the
others. -/
theorem descriptor_locator_fixed_and_independent :
    (descriptor_filename .model = "model_description.json"
      ∧ descriptor_filename .pipeline = "pipeline_description.json"
      ∧ descriptor_filename .resource = "resource_description.json")
    ∧ (∀ (fs : FileSystem) (json_path : String) (json_type : mlsvc_json_type_e)
          (app_info : Option Json),
        fs (g_build_filename json_path (descriptor_filename json_type)) = FileContent.notRegular →
        parse_json fs json_path json_type app_info = [])
    ∧ (∀ (fs fsB : FileSystem) (json_path : String) (json_type : mlsvc_json_type_e)
          (app_info : Option Json),
        fs (g_build_filename json_path (descriptor_filename json_type))
          = fsB (g_build_filename json_path (descriptor_filename json_type)) →
        parse_json fs json_path json_type app_info
          = parse_json fsB json_path json_type app_info) := by
  refine ⟨⟨rfl, rfl, rfl⟩, ?_, parse_json_fs_congr⟩
  intro fs json_path json_type app_info h
  simp only [parse_json]
  rw [h]

/-- Witness for C6: a filesystem with no files yields no operations. -/
theorem descriptor_locator_fixed_and_independent_witness :
    parse_json (fun _ => FileContent.notRegular) "/r" .pipeline none = [] :=
  descriptor_locator_fixed_and_independent.2.1
    (fun _ => FileContent.notRegular) "/r" .pipeline none rfl

/-- C7: an uninstall event in the Started phase and an update event in
the Completed phase attempt no registry operation (the handler only
lists the package directory into the log) and leave the registry state
unchanged. -/
theorem uninstall_update_events_no_mutation (env : PkgEnv) (ty package_name : String)
    (s : RegState) :
    pkg_mgr_event_cb env ty package_name .uninstall .started = []
    ∧ pkg_mgr_event_cb env ty package_name .update .completed = []
    ∧ applyOps s (pkg_mgr_event_cb env ty package_name .uninstall .started) = s
    ∧ applyOps s (pkg_mgr_event_cb env ty package_name .update .completed) = s := by
  have h1 : pkg_mgr_event_cb env ty package_name .uninstall .started = [] := by
    cases hty : g_ascii_strcaseeq ty "rpk" <;> simp [pkg_mgr_event_cb, hty]
  have h2 : pkg_mgr_event_cb env ty package_name .update .completed = [] := by
    cases hty : g_ascii_strcaseeq ty "rpk" <;> simp [pkg_mgr_event_cb, hty]
  exact ⟨h1, h2, by rw [h1]; rfl, by rw [h2]; rfl⟩

/-- C8: composing the AppInfo blob from a package id, resource type and
resource version and re-reading its three fields from the composed JSON
object gives back exactly the inputs. -/
theorem app_info_round_trip (package_name res_type res_version : String) :
    parse_app_info (get_app_info package_name res_type res_version)
      = some (package_name, res_type, res_version) := rfl

/-- C9: for every non-resource-copy event, the package-category filter
is an ASCII case-insensitive comparison with "rpk": a tag that is not
case-insensitively "rpk" makes the handler return at once with no
operation and no registry change for any environment, while a tag that
matches up to letter case is handled exactly as the tag "rpk". -/
theorem rpk_filter_case_insensitive (env : PkgEnv) (ty package_name : String)
    (event_type : package_manager_event_type_e) (event_state : package_manager_event_state_e)
    (s : RegState) (hne : event_type ≠ .res_copy) :
    (g_ascii_strcaseeq ty "rpk" = false →
        pkg_mgr_event_cb env ty package_name event_type event_state = []
        ∧ applyOps s (pkg_mgr_event_cb env ty package_name event_type event_state) = s)
    ∧ (g_ascii_strcaseeq ty "rpk" = true →
        pkg_mgr_event_cb env ty package_name event_type event_state
          = pkg_mgr_event_cb env "rpk" package_name event_type event_state) := by
  have hrpk : g_ascii_strcaseeq "rpk" "rpk" = true := by decide
  constructor
  · intro hty
    have hcb : pkg_mgr_event_cb env ty package_name event_type event_state = [] := by
      simp [pkg_mgr_event_cb, hne, hty]
    exact ⟨hcb, by rw [hcb]; rfl⟩
  · intro hty
    simp [pkg_mgr_event_cb, hne, hty, hrpk]

/-- Witness for C9: the tag "RPK" is handled as "rpk". -/
theorem rpk_filter_case_insensitive_witness :
    pkg_mgr_event_cb ⟨true, some "rt", some "1", fun _ => FileContent.notRegular⟩
        "RPK" "pkg" .install .completed
      = pkg_mgr_event_cb ⟨true, some "rt", some "1", fun _ => FileContent.notRegular⟩
        "rpk" "pkg" .install .completed :=
  (rpk_filter_case_insensitive ⟨true, some "rt", some "1", fun _ => FileContent.notRegular⟩
    "RPK" "pkg" .install .completed ⟨[], [], []⟩ (by decide)).2 (by decide)

/-- C10: a descriptor file whose JSON root is neither an array nor an
object is treated as a single record whose member lookups all fail, so
its required-field check fails and it is skipped: zero registry
operations, normal termination (all member accesses are total). -/
theorem non_container_root_yields_no_ops (root : Json) (json_path : String)
    (json_type : mlsvc_json_type_e) (app_info : Option Json)
    (hobj : ∀ members, root ≠ Json.obj members)
    (harr : ∀ elems, root ≠ Json.arr elems) :
    json_node_get_object root = none
    ∧ parse_json (single_file_fs (g_build_filename json_path (descriptor_filename json_type))
        (FileContent.json root)) json_path json_type app_info = [] := by
  constructor
  · cases root with
    | arr elems => exact absurd rfl (harr elems)
    | obj members => exact absurd rfl (hobj members)
    | null => rfl
    | bool b => rfl
    | num n => rfl
    | str s => rfl
  · rw [parse_json_single_file]
    cases root with
    | arr elems => exact absurd rfl (harr elems)
    | obj members => exact absurd rfl (hobj members)
    | null => cases json_type <;> rfl
    | bool b => cases json_type <;> rfl
    | num n => cases json_type <;> rfl
    | str s => cases json_type <;> rfl

/-- Witness for C10: a bare-string root yields no operations. -/
theorem non_container_root_yields_no_ops_witness :
    json_node_get_object (Json.str "x") = none
    ∧ parse_json (single_file_fs (g_build_filename "/r" (descriptor_filename .model))
        (FileContent.json (Json.str "x"))) "/r" .model none = [] :=
  non_container_root_yields_no_ops (Json.str "x") "/r" .model none
    (fun _ h => Json.noConfusion h) (fun _ h => Json.noConfusion h)

end MLAgent
